import Mathlib

/-!
Shallow embedding of the TicketTracker core (src/App.tsx).

The program is a single-file React Native ticket tracker.  Its core state is
the `tickets` list held by the main component, mutated by five handlers:
`handleCreateTicket`, `handleUpdateTicket`, `handleDeleteTicket`,
`handleStatusChange`, `handleRate`.  Input validation and content-edit gating
live in the `TicketForm` component (`handleSubmit`, `canEditContent`), whose
composition with the handlers is embedded as `formCreate` / `formEdit`.

Ambient effects (`Date.now()`, `Math.random()` and the wall clock read by
`formatDate`) are passed explicitly through an `Env` record, and JavaScript
strings are modelled by Lean `String` with `jsTrim` standing for
`String.prototype.trim` (strip leading and trailing whitespace).
-/

namespace TicketTracker

/-- Ticket status values (App.tsx `type TicketStatus`):
`Created`, `Under Assistance`, `Completed`. -/
inductive TicketStatus where
  | Created
  | UnderAssistance
  | Completed
deriving DecidableEq

/-- The ticket record (App.tsx `interface Ticket`).  The optional `rating`
field is an `Option Nat`. -/
structure Ticket where
  id : String
  title : String
  description : String
  status : TicketStatus
  createdAt : String
  rating : Option Nat
deriving DecidableEq

/-- Ambient effects read during one ticket creation: `Date.now()` (`now`),
the random suffix `Math.random().toString(36).substr(2, 9)` (`rand`), and the
wall-clock fields read by `formatDate` (`monthIndex` is the 0-based
`getMonth()`). -/
structure Env where
  now : Nat
  rand : String
  year : Nat
  monthIndex : Nat
  day : Nat
  hour : Nat
  minute : Nat
deriving DecidableEq

/-- The patch submitted to `onSave` by the form, and the update-patch shape of
the store API: optional `title`, `description`, `status`. -/
structure TicketPatch where
  title : Option String
  description : Option String
  status : Option TicketStatus
deriving DecidableEq

/-- Model of JavaScript `String.prototype.trim` on character lists: drop
leading whitespace, then drop trailing whitespace. -/
def trimChars (l : List Char) : List Char :=
  List.rdropWhile Char.isWhitespace (l.dropWhile Char.isWhitespace)

/-- Model of JavaScript `String.prototype.trim`. -/
def jsTrim (s : String) : String :=
  String.mk (trimChars s.data)

/-- App.tsx line 79: `` `ticket_${Date.now()}_${Math.random().toString(36).substr(2, 9)}` ``. -/
def generateId (now : Nat) (rand : String) : String :=
  "ticket_" ++ toString now ++ "_" ++ rand

/-- Model of `String(n).padStart(2, '0')`. -/
def pad2 (n : Nat) : String :=
  if (toString n).length < 2 then "0" ++ toString n else toString n

/-- App.tsx `formatDate` (lines 81-84): `YYYY-MM-DD HH:MM`, zero padded;
the month written is `getMonth() + 1`. -/
def formatDate (year monthIndex day hour minute : Nat) : String :=
  toString year ++ "-" ++ pad2 (monthIndex + 1) ++ "-" ++ pad2 day ++ " "
    ++ pad2 hour ++ ":" ++ pad2 minute

/-- The ids generated by a sequence of `generateId` calls whose ambient draws
(`Date.now()` value, random suffix) are listed in order. -/
def sessionIds (draws : List (Nat × String)) : List String :=
  draws.map (fun d => generateId d.1 d.2)

/-- The `newTicket` object built by `handleCreateTicket` (App.tsx lines
343-349) from the submitted data and the ambient environment. -/
def builtTicket (e : Env) (title description : String) : Ticket :=
  { id := generateId e.now e.rand
    title := title
    description := description
    status := TicketStatus.Created
    createdAt := formatDate e.year e.monthIndex e.day e.hour e.minute
    rating := none }

/-- App.tsx `handleCreateTicket` (lines 342-351): build the new ticket from the
submitted data and prepend it (`setTickets((prev) => [newTicket, ...prev])`). -/
def handleCreateTicket (tickets : List Ticket) (e : Env) (title description : String) :
    List Ticket :=
  builtTicket e title description :: tickets

/-- Composition of `TicketForm.handleSubmit` (lines 200-204) with
`handleCreateTicket`: reject when either trimmed field is empty, otherwise
save the trimmed title and description. -/
def formCreate (tickets : List Ticket) (e : Env) (title description : String) :
    List Ticket :=
  if jsTrim title = "" ∨ jsTrim description = "" then tickets
  else handleCreateTicket tickets e (jsTrim title) (jsTrim description)

/-- The object spread `{ ...t, ...data }` for a form patch: provided fields
overwrite, omitted fields are kept. -/
def applyPatch (t : Ticket) (p : TicketPatch) : Ticket :=
  { t with
    title := p.title.getD t.title
    description := p.description.getD t.description
    status := p.status.getD t.status }

/-- App.tsx `handleUpdateTicket` (lines 353-357): merge the patch into the
ticket whose id matches the ticket being edited. -/
def handleUpdateTicket (tickets : List Ticket) (editingId : String) (p : TicketPatch) :
    List Ticket :=
  tickets.map (fun t => if t.id = editingId then applyPatch t p else t)

/-- The title text sitting in the edit form at submit time.  The input is
editable only when `canEditContent` holds (`!ticket || ticket.status ===
'Created'`, App.tsx line 197), so for a ticket past `Created` the field still
holds the ticket's own title. -/
def submittedTitle (t : Ticket) (inputTitle : String) : String :=
  if t.status = TicketStatus.Created then inputTitle else t.title

/-- The description text sitting in the edit form at submit time; gated
exactly like `submittedTitle`. -/
def submittedDescription (t : Ticket) (inputDescription : String) : String :=
  if t.status = TicketStatus.Created then inputDescription else t.description

/-- Edit-mode `TicketForm` composed with `handleUpdateTicket`: the status
selector is always enabled, the content fields are gated by `canEditContent`,
and `handleSubmit` validates and saves the trimmed fields. -/
def formEdit (tickets : List Ticket) (t : Ticket) (inputTitle inputDescription : String)
    (inputStatus : TicketStatus) : List Ticket :=
  if jsTrim (submittedTitle t inputTitle) = "" ∨
      jsTrim (submittedDescription t inputDescription) = "" then tickets
  else handleUpdateTicket tickets t.id
    { title := some (jsTrim (submittedTitle t inputTitle))
      description := some (jsTrim (submittedDescription t inputDescription))
      status := some inputStatus }

/-- App.tsx `handleDeleteTicket` (lines 359-361):
`prev.filter((t) => t.id !== id)`. -/
def handleDeleteTicket (tickets : List Ticket) (id : String) : List Ticket :=
  tickets.filter (fun t => t.id ≠ id)

/-- App.tsx `handleStatusChange` (lines 363-365):
`prev.map((t) => (t.id === id ? { ...t, status } : t))`. -/
def handleStatusChange (tickets : List Ticket) (id : String) (status : TicketStatus) :
    List Ticket :=
  tickets.map (fun t => if t.id = id then { t with status := status } else t)

/-- App.tsx `handleRate` (lines 367-369):
`prev.map((t) => (t.id === id ? { ...t, rating } : t))`. -/
def handleRate (tickets : List Ticket) (id : String) (rating : Nat) : List Ticket :=
  tickets.map (fun t => if t.id = id then { t with rating := some rating } else t)

/-- Sample ticket 1 from `SAMPLE_TICKETS` (App.tsx lines 68-74). -/
def st1 : Ticket :=
  { id := "1", title := "Login button not responding"
    description := "The login button does not work on mobile devices when tapped multiple times."
    status := TicketStatus.Completed, createdAt := "2025-10-05 14:32", rating := some 5 }

/-- Sample ticket 2 from `SAMPLE_TICKETS`. -/
def st2 : Ticket :=
  { id := "2", title := "Dashboard loading slowly"
    description := "Dashboard takes more than 10 seconds to load all widgets and data."
    status := TicketStatus.UnderAssistance, createdAt := "2025-10-06 09:15", rating := none }

/-- Sample ticket 3 from `SAMPLE_TICKETS`. -/
def st3 : Ticket :=
  { id := "3", title := "Email notifications not sent"
    description := "Users report not receiving email notifications for ticket updates."
    status := TicketStatus.Created, createdAt := "2025-10-06 16:45", rating := none }

/-- Sample ticket 4 from `SAMPLE_TICKETS`. -/
def st4 : Ticket :=
  { id := "4", title := "Profile picture upload fails"
    description := "Error message appears when trying to upload profile pictures larger than 2MB."
    status := TicketStatus.Completed, createdAt := "2025-10-04 11:20", rating := some 4 }

/-- Sample ticket 5 from `SAMPLE_TICKETS`. -/
def st5 : Ticket :=
  { id := "5", title := "Search function returns no results"
    description := "The search bar does not return any results even with valid keywords."
    status := TicketStatus.UnderAssistance, createdAt := "2025-10-07 08:00", rating := none }

/-- The `SAMPLE_TICKETS` constant (App.tsx lines 68-74), the initial value of
the `tickets` state. -/
def SAMPLE_TICKETS : List Ticket := [st1, st2, st3, st4, st5]

/-- One discrete user action, as wired in the main component: create through
the form, edit a listed ticket through the form, delete, press a status action
button, or press a rating star. -/
inductive Step : List Ticket → List Ticket → Prop where
  | create (tickets : List Ticket) (e : Env) (title description : String) :
      Step tickets (formCreate tickets e title description)
  | update (tickets : List Ticket) (t : Ticket) (ht : t ∈ tickets)
      (inputTitle inputDescription : String) (inputStatus : TicketStatus) :
      Step tickets (formEdit tickets t inputTitle inputDescription inputStatus)
  | delete (tickets : List Ticket) (id : String) :
      Step tickets (handleDeleteTicket tickets id)
  | statusChange (tickets : List Ticket) (id : String) (status : TicketStatus) :
      Step tickets (handleStatusChange tickets id status)
  | rate (tickets : List Ticket) (id : String) (rating : Nat) :
      Step tickets (handleRate tickets id rating)

/-- States reachable from the initial `SAMPLE_TICKETS` state by user actions. -/
inductive Reachable : List Ticket → Prop where
  | init : Reachable SAMPLE_TICKETS
  | step {s s' : List Ticket} : Reachable s → Step s s' → Reachable s'

/-- A list with no leading satisfying element keeps that property on any of
its prefixes (given as an append decomposition). -/
theorem dropWhile_append_self (p : Char → Bool) (m s : List Char)
    (hm : (m ++ s).dropWhile p = m ++ s) : m.dropWhile p = m := by
  cases m with
  | nil => rfl
  | cons a t =>
    have h0 : ¬ p a = true := by
      have h1 := List.dropWhile_eq_self_iff.mp hm (by simp)
      simpa using h1
    rw [List.dropWhile_cons, if_neg h0]

/-- Trimming is idempotent. -/
theorem trimChars_idem (l : List Char) : trimChars (trimChars l) = trimChars l := by
  unfold trimChars
  have h1 : (List.rdropWhile Char.isWhitespace
        (l.dropWhile Char.isWhitespace)).dropWhile Char.isWhitespace
      = List.rdropWhile Char.isWhitespace (l.dropWhile Char.isWhitespace) := by
    obtain ⟨s, hs⟩ := List.rdropWhile_prefix Char.isWhitespace (l.dropWhile Char.isWhitespace)
    apply dropWhile_append_self Char.isWhitespace _ s
    rw [hs]
    exact List.dropWhile_idempotent Char.isWhitespace l
  rw [h1]
  exact List.rdropWhile_idempotent Char.isWhitespace _

/-- Trimming a string is idempotent. -/
theorem jsTrim_idem (s : String) : jsTrim (jsTrim s) = jsTrim s :=
  congrArg String.mk (trimChars_idem s.data)

/-- A string whose trim is non-empty is itself non-empty. -/
theorem ne_empty_of_jsTrim_ne_empty {s : String} (h : jsTrim s ≠ "") : s ≠ "" := by
  intro he
  subst he
  exact h rfl

/-- Taking characters while distinct from a separator recovers the part
before the separator. -/
theorem takeWhile_until_sep (m rest : List Char) (hm : ∀ c ∈ m, c ≠ '_') :
    (m ++ '_' :: rest).takeWhile (fun c => c != '_') = m := by
  induction m with
  | nil => simp [List.takeWhile_cons]
  | cons a t ih =>
    have ha : a ≠ '_' := hm a (List.mem_cons_self a t)
    have ht : ∀ c ∈ t, c ≠ '_' := fun c hc => hm c (List.mem_cons_of_mem a hc)
    simp [List.takeWhile_cons, ha, ih ht]

/-- Two `generateId` outputs with underscore-free random suffixes agree only
if their suffixes agree: the suffix is recoverable as the segment after the
last underscore. -/
theorem generateId_suffix_inj {n1 n2 : Nat} {r1 r2 : String}
    (h1 : ∀ c ∈ r1.data, c ≠ '_') (h2 : ∀ c ∈ r2.data, c ≠ '_')
    (heq : generateId n1 r1 = generateId n2 r2) : r1 = r2 := by
  have hd := congrArg String.data heq
  have hu : ("_" : String).data = ['_'] := rfl
  simp only [generateId, String.data_append, hu] at hd
  have hrev := congrArg List.reverse hd
  simp only [List.reverse_append, List.reverse_cons, List.reverse_nil, List.nil_append,
    List.append_assoc, List.singleton_append, List.cons_append] at hrev
  have hr1 : ∀ c ∈ r1.data.reverse, c ≠ '_' := fun c hc => h1 c (List.mem_reverse.mp hc)
  have hr2 : ∀ c ∈ r2.data.reverse, c ≠ '_' := fun c hc => h2 c (List.mem_reverse.mp hc)
  have ht := congrArg (List.takeWhile (fun c => c != '_')) hrev
  rw [takeWhile_until_sep _ _ hr1, takeWhile_until_sep _ _ hr2] at ht
  have hdata := congrArg List.reverse ht
  simp only [List.reverse_reverse] at hdata
  exact String.ext hdata

/-- The formatted creation timestamp is never the empty string. -/
theorem formatDate_ne_empty (y m d h mi : Nat) : formatDate y m d h mi ≠ "" := by
  intro hemp
  have hlen := congrArg String.length hemp
  have hd : ("-" : String).length = 1 := rfl
  have hsp : (" " : String).length = 1 := rfl
  have hcl : (":" : String).length = 1 := rfl
  have he : ("" : String).length = 0 := rfl
  simp only [formatDate, String.length_append, hd, hsp, hcl, he] at hlen
  omega

/-- Mapping a per-id update over the list leaves any projection untouched by
the update unchanged everywhere. -/
theorem map_proj_of_update {α : Type} (tickets : List Ticket) (id : String)
    (f : Ticket → Ticket) (g : Ticket → α) (hg : ∀ t, g (f t) = g t) :
    (tickets.map (fun t => if t.id = id then f t else t)).map g = tickets.map g := by
  induction tickets with
  | nil => rfl
  | cons a rest ih => by_cases h : a.id = id <;> simp [h, hg, ih]

/-- An id-preserving per-id update leaves every ticket with a different id
untouched (it is still the same list element). -/
theorem update_frame_mem (tickets : List Ticket) (id : String) (f : Ticket → Ticket)
    (hf : ∀ t, (f t).id = t.id) :
    ∀ t' ∈ tickets.map (fun t => if t.id = id then f t else t), t'.id ≠ id → t' ∈ tickets := by
  intro t' ht' hne
  obtain ⟨t, ht, heq⟩ := List.mem_map.mp ht'
  by_cases h : t.id = id
  · exfalso
    rw [if_pos h] at heq
    apply hne
    rw [← heq, hf, h]
  · rw [if_neg h] at heq
    exact heq ▸ ht

/-- After a per-id update, every ticket carrying the target id has the value
the update writes. -/
theorem update_hit {α : Type} (tickets : List Ticket) (id : String) (f : Ticket → Ticket)
    (g : Ticket → α) (v : α) (hfv : ∀ t, g (f t) = v) :
    ∀ t' ∈ tickets.map (fun t => if t.id = id then f t else t), t'.id = id → g t' = v := by
  intro t' ht' hid
  obtain ⟨t, ht, heq⟩ := List.mem_map.mp ht'
  by_cases h : t.id = id
  · rw [← heq, if_pos h, hfv]
  · exfalso
    rw [if_neg h] at heq
    exact h (by rw [heq]; exact hid)

/-- A per-id update aimed at an id that is not present is the identity. -/
theorem update_absent (tickets : List Ticket) (id : String) (f : Ticket → Ticket)
    (h : id ∉ tickets.map Ticket.id) :
    tickets.map (fun t => if t.id = id then f t else t) = tickets := by
  induction tickets with
  | nil => rfl
  | cons a rest ih =>
    have ha : ¬ a.id = id := by
      intro hh
      exact h (by simp [hh])
    have hr : id ∉ rest.map Ticket.id := by
      intro hm
      exact h (by simp [hm])
    simp [ha, ih hr]

/-- Content invariant: every stored title and description is already trimmed
and non-empty. -/
def Inv (tickets : List Ticket) : Prop :=
  ∀ t ∈ tickets, jsTrim t.title = t.title ∧ t.title ≠ "" ∧
    jsTrim t.description = t.description ∧ t.description ≠ ""

/-- Every user action preserves the content invariant. -/
theorem inv_step {s s' : List Ticket} (h : Inv s) (hs : Step s s') : Inv s' := by
  cases hs with
  | create e title description =>
    by_cases hc : jsTrim title = "" ∨ jsTrim description = ""
    · simpa [formCreate, hc] using h
    · push_neg at hc
      obtain ⟨hT, hD⟩ := hc
      intro u hu
      simp only [formCreate, if_neg (not_or.mpr ⟨hT, hD⟩), handleCreateTicket] at hu
      rcases List.mem_cons.mp hu with hnew | hold
      · subst hnew
        exact ⟨jsTrim_idem title, hT, jsTrim_idem description, hD⟩
      · exact h u hold
  | update t ht inputTitle inputDescription inputStatus =>
    by_cases hc : jsTrim (submittedTitle t inputTitle) = "" ∨
        jsTrim (submittedDescription t inputDescription) = ""
    · simpa [formEdit, hc] using h
    · push_neg at hc
      obtain ⟨hT, hD⟩ := hc
      intro u hu
      simp only [formEdit, if_neg (not_or.mpr ⟨hT, hD⟩), handleUpdateTicket] at hu
      obtain ⟨w, hw, hwe⟩ := List.mem_map.mp hu
      by_cases hwid : w.id = t.id
      · rw [if_pos hwid] at hwe
        subst hwe
        exact ⟨jsTrim_idem _, hT, jsTrim_idem _, hD⟩
      · rw [if_neg hwid] at hwe
        exact hwe ▸ h w hw
  | delete id =>
    intro u hu
    exact h u (List.mem_of_mem_filter hu)
  | statusChange id status =>
    intro u hu
    obtain ⟨w, hw, hwe⟩ := List.mem_map.mp hu
    by_cases hwid : w.id = id
    · rw [if_pos hwid] at hwe
      subst hwe
      exact h w hw
    · rw [if_neg hwid] at hwe
      exact hwe ▸ h w hw
  | rate id rating =>
    intro u hu
    obtain ⟨w, hw, hwe⟩ := List.mem_map.mp hu
    by_cases hwid : w.id = id
    · rw [if_pos hwid] at hwe
      subst hwe
      exact h w hw
    · rw [if_neg hwid] at hwe
      exact hwe ▸ h w hw

/-- Every reachable state satisfies the content invariant. -/
theorem reachable_inv {s : List Ticket} (h : Reachable s) : Inv s := by
  induction h with
  | init =>
    unfold Inv
    decide
  | step hr hst ih => exact inv_step ih hst

/-- A concrete ambient environment used in concrete instantiations:
`Date.now() = 1`, random suffix `k3j9q2m5x`, clock at 2025-10-11 12:00
(month index 9 is October). -/
def env0 : Env :=
  { now := 1, rand := "k3j9q2m5x", year := 2025, monthIndex := 9, day := 11,
    hour := 12, minute := 0 }

/-- C2: a create whose title or description is empty after trimming is a
no-op: the collection is returned unchanged, so in particular its size is
unchanged; the handlers are total functions with no error channel, mirroring
the void, throw-free code, so no error is signaled. -/
theorem create_blank_noop (tickets : List Ticket) (e : Env) (title description : String)
    (h : jsTrim title = "" ∨ jsTrim description = "") :
    formCreate tickets e title description = tickets := by
  unfold formCreate
  rw [if_pos h]

/-- Witness for `create_blank_noop` at the spec scenario `create(" ", " ")`. -/
theorem create_blank_noop_witness :
    (jsTrim " " = "" ∨ jsTrim " " = "") ∧
      formCreate SAMPLE_TICKETS env0 " " " " = SAMPLE_TICKETS :=
  ⟨Or.inl (by decide), create_blank_noop SAMPLE_TICKETS env0 " " " " (Or.inl (by decide))⟩

/-- C3: every successful create prepends: the result is the new ticket consed
onto the previous collection, so the previous tickets all survive in their
previous relative order behind the new head (newest first, never appended). -/
theorem create_prepends (tickets : List Ticket) (e : Env) (title description : String)
    (ht : jsTrim title ≠ "") (hd : jsTrim description ≠ "") :
    ∃ t : Ticket, formCreate tickets e title description = t :: tickets := by
  unfold formCreate handleCreateTicket
  rw [if_neg (not_or.mpr ⟨ht, hd⟩)]
  exact ⟨_, rfl⟩

/-- Witness for `create_prepends` at the spec ordering scenario. -/
theorem create_prepends_witness :
    jsTrim "X" ≠ "" ∧ jsTrim "Y" ≠ "" ∧
      (formCreate SAMPLE_TICKETS env0 "X" "Y").length = SAMPLE_TICKETS.length + 1 := by
  obtain ⟨t, hteq⟩ := create_prepends SAMPLE_TICKETS env0 "X" "Y" (by decide) (by decide)
  refine ⟨by decide, by decide, ?_⟩
  rw [hteq]
  rfl

/-- C6: operating on an id that is not present leaves the collection
identical for update, remove, setStatus and setRating; the handlers are total
functions with no error channel, so nothing is thrown. -/
theorem stale_id_noop (tickets : List Ticket) (id : String) (p : TicketPatch)
    (st : TicketStatus) (r : Nat) (h : id ∉ tickets.map Ticket.id) :
    handleUpdateTicket tickets id p = tickets ∧
    handleDeleteTicket tickets id = tickets ∧
    handleStatusChange tickets id st = tickets ∧
    handleRate tickets id r = tickets := by
  refine ⟨update_absent tickets id _ h, ?_,
    update_absent tickets id _ h, update_absent tickets id _ h⟩
  apply List.filter_eq_self.mpr
  intro a ha
  have hne : a.id ≠ id := fun hc => h (List.mem_map.mpr ⟨a, ha, hc⟩)
  simpa using hne

/-- Witness for `stale_id_noop` at the unknown id `"zzz"`. -/
theorem stale_id_noop_witness :
    ("zzz" ∉ SAMPLE_TICKETS.map Ticket.id) ∧
      handleUpdateTicket SAMPLE_TICKETS "zzz"
        { title := some "x", description := none, status := some TicketStatus.Created }
        = SAMPLE_TICKETS ∧
      handleDeleteTicket SAMPLE_TICKETS "zzz" = SAMPLE_TICKETS ∧
      handleStatusChange SAMPLE_TICKETS "zzz" TicketStatus.Completed = SAMPLE_TICKETS ∧
      handleRate SAMPLE_TICKETS "zzz" 5 = SAMPLE_TICKETS :=
  ⟨by decide, stale_id_noop SAMPLE_TICKETS "zzz" _ TicketStatus.Completed 5 (by decide)⟩

/-- C7: removing a present id removes every ticket with that id, keeps every
ticket with a different id present and unmodified, and keeps the remaining
tickets in their previous relative order (the result is a sublist of the
original). -/
theorem remove_present (tickets : List Ticket) (id : String)
    (h : id ∈ tickets.map Ticket.id) :
    (∀ t ∈ handleDeleteTicket tickets id, t.id ≠ id) ∧
    (∀ t ∈ tickets, t.id ≠ id → t ∈ handleDeleteTicket tickets id) ∧
    (handleDeleteTicket tickets id).Sublist tickets := by
  refine ⟨?_, ?_, List.filter_sublist tickets⟩
  · intro t htm
    have hp := List.of_mem_filter htm
    simpa using hp
  · intro t htm hne
    apply List.mem_filter_of_mem htm
    simpa using hne

/-- Witness for `remove_present`: removing id `"3"` keeps ticket 1 intact. -/
theorem remove_present_witness :
    ("3" ∈ SAMPLE_TICKETS.map Ticket.id) ∧ st1.id ≠ "3" ∧
      st1 ∈ handleDeleteTicket SAMPLE_TICKETS "3" :=
  ⟨by decide, by decide,
    (remove_present SAMPLE_TICKETS "3" (by decide)).2.1 st1 (by decide) (by decide)⟩

/-- C4: for a present id, `setStatus` overwrites the status of the ticket
with that id to the given value with no hypothesis at all about the previous
status — no legality check of the transition; the same holds for `update`
with a status-only patch.  The witness instantiates this with a `Completed`
ticket being set back to `Created`. -/
theorem setStatus_unconditional (tickets : List Ticket) (id : String) (st : TicketStatus)
    (h : id ∈ tickets.map Ticket.id) :
    (∃ t' ∈ handleStatusChange tickets id st, t'.id = id ∧ t'.status = st) ∧
    (∀ t' ∈ handleStatusChange tickets id st, t'.id = id → t'.status = st) ∧
    (∀ t' ∈ handleUpdateTicket tickets id
        { title := none, description := none, status := some st },
      t'.id = id → t'.status = st) := by
  refine ⟨?_, ?_, ?_⟩
  · obtain ⟨t, htm, hid⟩ := List.mem_map.mp h
    refine ⟨{ t with status := st }, ?_, hid, rfl⟩
    exact List.mem_map.mpr ⟨t, htm, by rw [if_pos hid]⟩
  · exact update_hit tickets id _ Ticket.status st (fun t => rfl)
  · exact update_hit tickets id _ Ticket.status st (fun t => rfl)

/-- The first sample ticket, `Completed`, with its status regressed to
`Created`. -/
def st1back : Ticket := { st1 with status := TicketStatus.Created }

/-- Witness for `setStatus_unconditional`: the `Completed` sample ticket 1 is
set back to `Created` and the write succeeds. -/
theorem setStatus_unconditional_witness :
    ("1" ∈ SAMPLE_TICKETS.map Ticket.id) ∧ st1.status = TicketStatus.Completed ∧
      st1back ∈ handleStatusChange SAMPLE_TICKETS "1" TicketStatus.Created ∧
      st1back.status = TicketStatus.Created := by
  have T := setStatus_unconditional SAMPLE_TICKETS "1" TicketStatus.Created (by decide)
  exact ⟨by decide, rfl, by decide, T.2.1 st1back (by decide) (by decide)⟩

/-- C10: `setStatus` writes only the status field of the tickets carrying the
target id, `setRating` only their rating field: every other field column is
unchanged, every ticket with a different id is the identical list element,
and the length (hence the order) of the collection is unchanged. -/
theorem setStatus_setRating_frame (tickets : List Ticket) (id : String)
    (st : TicketStatus) (r : Nat) (h : id ∈ tickets.map Ticket.id) :
    (((handleStatusChange tickets id st).map Ticket.id = tickets.map Ticket.id) ∧
      ((handleStatusChange tickets id st).map Ticket.title = tickets.map Ticket.title) ∧
      ((handleStatusChange tickets id st).map Ticket.description
        = tickets.map Ticket.description) ∧
      ((handleStatusChange tickets id st).map Ticket.createdAt
        = tickets.map Ticket.createdAt) ∧
      ((handleStatusChange tickets id st).map Ticket.rating = tickets.map Ticket.rating) ∧
      (∀ t' ∈ handleStatusChange tickets id st, t'.id ≠ id → t' ∈ tickets) ∧
      ((handleStatusChange tickets id st).length = tickets.length)) ∧
    (((handleRate tickets id r).map Ticket.id = tickets.map Ticket.id) ∧
      ((handleRate tickets id r).map Ticket.title = tickets.map Ticket.title) ∧
      ((handleRate tickets id r).map Ticket.description = tickets.map Ticket.description) ∧
      ((handleRate tickets id r).map Ticket.createdAt = tickets.map Ticket.createdAt) ∧
      ((handleRate tickets id r).map Ticket.status = tickets.map Ticket.status) ∧
      (∀ t' ∈ handleRate tickets id r, t'.id ≠ id → t' ∈ tickets) ∧
      ((handleRate tickets id r).length = tickets.length)) := by
  refine ⟨⟨?_, ?_, ?_, ?_, ?_, ?_, ?_⟩, ?_, ?_, ?_, ?_, ?_, ?_, ?_⟩
  · exact map_proj_of_update tickets id _ Ticket.id (fun t => rfl)
  · exact map_proj_of_update tickets id _ Ticket.title (fun t => rfl)
  · exact map_proj_of_update tickets id _ Ticket.description (fun t => rfl)
  · exact map_proj_of_update tickets id _ Ticket.createdAt (fun t => rfl)
  · exact map_proj_of_update tickets id _ Ticket.rating (fun t => rfl)
  · exact update_frame_mem tickets id _ (fun t => rfl)
  · simp [handleStatusChange]
  · exact map_proj_of_update tickets id _ Ticket.id (fun t => rfl)
  · exact map_proj_of_update tickets id _ Ticket.title (fun t => rfl)
  · exact map_proj_of_update tickets id _ Ticket.description (fun t => rfl)
  · exact map_proj_of_update tickets id _ Ticket.createdAt (fun t => rfl)
  · exact map_proj_of_update tickets id _ Ticket.status (fun t => rfl)
  · exact update_frame_mem tickets id _ (fun t => rfl)
  · simp [handleRate]

/-- Witness for `setStatus_setRating_frame` on the sample data. -/
theorem setStatus_setRating_frame_witness :
    ("1" ∈ SAMPLE_TICKETS.map Ticket.id) ∧
      (handleStatusChange SAMPLE_TICKETS "1" TicketStatus.Created).map Ticket.title
        = SAMPLE_TICKETS.map Ticket.title ∧
      (handleRate SAMPLE_TICKETS "1" 3).map Ticket.status
        = SAMPLE_TICKETS.map Ticket.status := by
  have T := setStatus_setRating_frame SAMPLE_TICKETS "1" TicketStatus.Created 3 (by decide)
  exact ⟨by decide, T.1.2.1, T.2.2.2.2.2.1⟩

/-- C5 (amended): once present, a rating is never changed by create, update,
remove or setStatus: create leaves every previous ticket untouched behind the
new head, the update patch carries no rating field, remove keeps exactly the
surviving list elements, and setStatus preserves the rating column.
`setRating` itself, however, overwrites an existing rating at the store level
(see its counterexample); its immutability is only a presentation-layer
convention (the star control disables itself once a rating exists). -/
theorem rating_preserved_except_setRating (tickets : List Ticket) (e : Env)
    (title description : String) (eid : String) (p : TicketPatch) (did sid : String)
    (st : TicketStatus) :
    (∃ pre : List Ticket, formCreate tickets e title description = pre ++ tickets) ∧
    ((handleUpdateTicket tickets eid p).map Ticket.rating = tickets.map Ticket.rating) ∧
    (∀ t ∈ handleDeleteTicket tickets did, t ∈ tickets) ∧
    ((handleStatusChange tickets sid st).map Ticket.rating = tickets.map Ticket.rating) := by
  refine ⟨?_, ?_, ?_, ?_⟩
  · by_cases hc : jsTrim title = "" ∨ jsTrim description = ""
    · refine ⟨[], ?_⟩
      unfold formCreate
      rw [if_pos hc]
      exact (List.nil_append tickets).symm
    · refine ⟨[builtTicket e (jsTrim title) (jsTrim description)], ?_⟩
      unfold formCreate handleCreateTicket
      rw [if_neg hc]
      rfl
  · exact map_proj_of_update tickets eid _ Ticket.rating (fun t => rfl)
  · intro t htm
    exact List.mem_of_mem_filter htm
  · exact map_proj_of_update tickets sid _ Ticket.rating (fun t => rfl)

/-- The patch used in the concrete instantiation of the rating-preservation
theorem. -/
def patch0 : TicketPatch :=
  { title := some "T", description := some "D", status := some TicketStatus.Created }

/-- Witness instantiation for `rating_preserved_except_setRating` on the
sample data. -/
theorem rating_preserved_witness :
    (handleUpdateTicket SAMPLE_TICKETS "1" patch0).map Ticket.rating
      = SAMPLE_TICKETS.map Ticket.rating := by
  have T := rating_preserved_except_setRating SAMPLE_TICKETS env0 "a" "b" "1" patch0 "2" "3"
    TicketStatus.Completed
  exact T.2.1

/-- A ticket that already carries rating 5, used in the `setRating`
counterexample. -/
def ratedTicket : Ticket :=
  { id := "r1", title := "t", description := "d", status := TicketStatus.Completed,
    createdAt := "2025-10-05 14:32", rating := some 5 }

/-- C5 counterexample: `setRating` does change a present rating at the store
level — rating 5 becomes rating 3 — refuting the claim that no store
operation ever changes a present rating. -/
theorem setRating_overwrites_cex :
    ratedTicket.rating = some 5 ∧
      (handleRate [ratedTicket] "r1" 3).map Ticket.rating = [some 3] ∧
      some 3 ≠ some 5 :=
  ⟨rfl, by decide, by decide⟩

/-- C1 (amended): a create with non-empty trimmed title and description
prepends a ticket with status `Created`, no rating and a non-empty
`createdAt`; its id differs from the id of every previous session draw
provided all random suffixes are underscore-free (as the base-36 output of
`Math.random().toString(36)` always is) and the current draw's suffix
differs from every previous one.  Uniqueness is thus only as good as the
ambient randomness — see the collision counterexample. -/
theorem create_fresh (tickets : List Ticket) (e : Env) (title description : String)
    (prev : List (Nat × String)) (ht : jsTrim title ≠ "") (hd : jsTrim description ≠ "")
    (hfree : ∀ c ∈ e.rand.data, c ≠ '_')
    (hprev : ∀ d ∈ prev, (∀ c ∈ d.2.data, c ≠ '_') ∧ d.2 ≠ e.rand) :
    ∃ t : Ticket, formCreate tickets e title description = t :: tickets ∧
      t.status = TicketStatus.Created ∧ t.rating = none ∧ t.createdAt ≠ "" ∧
      t.id ∉ sessionIds prev := by
  refine ⟨builtTicket e (jsTrim title) (jsTrim description), ?_, rfl, rfl,
    formatDate_ne_empty e.year e.monthIndex e.day e.hour e.minute, ?_⟩
  · unfold formCreate handleCreateTicket
    rw [if_neg (not_or.mpr ⟨ht, hd⟩)]
  · intro hmem
    simp only [sessionIds] at hmem
    obtain ⟨d, hdm, hde⟩ := List.mem_map.mp hmem
    obtain ⟨hdu, hdne⟩ := hprev d hdm
    exact hdne (generateId_suffix_inj hdu hfree hde)

/-- Witness for `create_fresh`: a concrete create against a one-draw session
with a different suffix. -/
theorem create_fresh_witness :
    jsTrim "Login bug" ≠ "" ∧ jsTrim "Button unresponsive" ≠ "" ∧
      formCreate [] env0 "Login bug" "Button unresponsive" ≠ [] := by
  obtain ⟨t, hteq, -, -, -, -⟩ := create_fresh [] env0 "Login bug" "Button unresponsive"
    [(0, "abcdefghi")] (by decide) (by decide) (by decide) (by decide)
  refine ⟨by decide, by decide, ?_⟩
  rw [hteq]
  simp

/-- The ticket produced by `formCreate [] env0 "a" "b"`: its id reuses the
draw `(1, "k3j9q2m5x")`. -/
def collisionTicket : Ticket :=
  { id := "ticket_1_k3j9q2m5x", title := "a", description := "b",
    status := TicketStatus.Created, createdAt := "2025-10-11 12:00", rating := none }

/-- C1 counterexample: when the ambient draw (`Date.now()` value and random
suffix) coincides with an earlier one, the created ticket's id equals a
previously generated session id — the id is not unconditionally distinct. -/
theorem create_id_collision_cex :
    formCreate [] env0 "a" "b" = [collisionTicket] ∧
      collisionTicket.id ∈ sessionIds [(1, "k3j9q2m5x")] :=
  ⟨by decide, by decide⟩

/-- C8: in every reachable state every ticket's title and description are
non-empty and not whitespace-only (their trim is non-empty); every user
action, the form-mediated update included, preserves this. -/
theorem content_nonblank_invariant (s : List Ticket) (h : Reachable s) :
    ∀ t ∈ s, t.title ≠ "" ∧ jsTrim t.title ≠ "" ∧
      t.description ≠ "" ∧ jsTrim t.description ≠ "" := by
  intro t htm
  obtain ⟨h1, h2, h3, h4⟩ := reachable_inv h t htm
  exact ⟨h2, by rw [h1]; exact h2, h4, by rw [h3]; exact h4⟩

/-- Witness for `content_nonblank_invariant` at the initial state. -/
theorem content_nonblank_invariant_witness :
    st1.title ≠ "" ∧ jsTrim st1.title ≠ "" ∧
      st1.description ≠ "" ∧ jsTrim st1.description ≠ "" :=
  content_nonblank_invariant SAMPLE_TICKETS Reachable.init st1 (by decide)

/-- C9: across any single user action from a reachable state, under the data
model's unique-id keying (spec section 3) for both the pre- and post-state, a
ticket whose status has progressed past `Created` keeps its title and
description: any post-state ticket carrying its id has the same title and the
same description. -/
theorem content_edit_gating (s s' : List Ticket) (hr : Reachable s)
    (hnd : (s.map Ticket.id).Nodup) (hnd' : (s'.map Ticket.id).Nodup)
    (hstep : Step s s') (t : Ticket) (hts : t ∈ s)
    (hst : t.status ≠ TicketStatus.Created) :
    ∀ t' ∈ s', t'.id = t.id → t'.title = t.title ∧ t'.description = t.description := by
  have hinv := reachable_inv hr
  intro t' ht' hid
  cases hstep with
  | create e title description =>
    by_cases hc : jsTrim title = "" ∨ jsTrim description = ""
    · rw [formCreate.eq_def, if_pos hc] at ht'
      have he := List.inj_on_of_nodup_map hnd ht' hts hid
      subst he
      exact ⟨rfl, rfl⟩
    · rw [formCreate.eq_def, if_neg hc] at ht' hnd'
      simp only [handleCreateTicket] at ht' hnd'
      rcases List.mem_cons.mp ht' with hnew | hold
      · exfalso
        subst hnew
        rw [List.map_cons] at hnd'
        have hmem : t.id ∈ s.map Ticket.id := List.mem_map.mpr ⟨t, hts, rfl⟩
        rw [← hid] at hmem
        exact (List.nodup_cons.mp hnd').1 hmem
      · have he := List.inj_on_of_nodup_map hnd hold hts hid
        subst he
        exact ⟨rfl, rfl⟩
  | update u hu inputTitle inputDescription inputStatus =>
    by_cases hc : jsTrim (submittedTitle u inputTitle) = "" ∨
        jsTrim (submittedDescription u inputDescription) = ""
    · rw [formEdit.eq_def, if_pos hc] at ht'
      have he := List.inj_on_of_nodup_map hnd ht' hts hid
      subst he
      exact ⟨rfl, rfl⟩
    · rw [formEdit.eq_def, if_neg hc] at ht'
      simp only [handleUpdateTicket] at ht'
      obtain ⟨w, hw, hwe⟩ := List.mem_map.mp ht'
      by_cases hwid : w.id = u.id
      · rw [if_pos hwid] at hwe
        have hwt : w = t := by
          apply List.inj_on_of_nodup_map hnd hw hts
          rw [← hid, ← hwe]
          rfl
        have hut : u = t := by
          apply List.inj_on_of_nodup_map hnd hu hts
          rw [← hwt]
          exact hwid.symm
        obtain ⟨htw, -, hdw, -⟩ := hinv u hu
        have hNC : ¬ u.status = TicketStatus.Created := by
          rw [hut]
          exact hst
        constructor
        · rw [← hwe]
          show jsTrim (submittedTitle u inputTitle) = t.title
          unfold submittedTitle
          rw [if_neg hNC, htw, hut]
        · rw [← hwe]
          show jsTrim (submittedDescription u inputDescription) = t.description
          unfold submittedDescription
          rw [if_neg hNC, hdw, hut]
      · rw [if_neg hwid] at hwe
        subst hwe
        have he := List.inj_on_of_nodup_map hnd hw hts hid
        subst he
        exact ⟨rfl, rfl⟩
  | delete id =>
    have he := List.inj_on_of_nodup_map hnd (List.mem_of_mem_filter ht') hts hid
    subst he
    exact ⟨rfl, rfl⟩
  | statusChange id status =>
    obtain ⟨w, hw, hwe⟩ := List.mem_map.mp ht'
    by_cases hwid : w.id = id
    · rw [if_pos hwid] at hwe
      subst hwe
      have he : w = t := List.inj_on_of_nodup_map hnd hw hts hid
      subst he
      exact ⟨rfl, rfl⟩
    · rw [if_neg hwid] at hwe
      subst hwe
      have he := List.inj_on_of_nodup_map hnd hw hts hid
      subst he
      exact ⟨rfl, rfl⟩
  | rate id rating =>
    obtain ⟨w, hw, hwe⟩ := List.mem_map.mp ht'
    by_cases hwid : w.id = id
    · rw [if_pos hwid] at hwe
      subst hwe
      have he : w = t := List.inj_on_of_nodup_map hnd hw hts hid
      subst he
      exact ⟨rfl, rfl⟩
    · rw [if_neg hwid] at hwe
      subst hwe
      have he := List.inj_on_of_nodup_map hnd hw hts hid
      subst he
      exact ⟨rfl, rfl⟩

/-- The sample ticket 2 after its status is advanced to `Completed`. -/
def st2c : Ticket := { st2 with status := TicketStatus.Completed }

/-- Witness for `content_edit_gating`: a status-change step on the
`Under Assistance` sample ticket 2 leaves its content untouched. -/
theorem content_edit_gating_witness :
    st2.status ≠ TicketStatus.Created ∧ st2c.title = st2.title ∧
      st2c.description = st2.description := by
  have T := content_edit_gating SAMPLE_TICKETS
    (handleStatusChange SAMPLE_TICKETS "2" TicketStatus.Completed)
    Reachable.init (by decide) (by decide)
    (Step.statusChange SAMPLE_TICKETS "2" TicketStatus.Completed)
    st2 (by decide) (by decide)
  exact ⟨by decide, T st2c (by decide) (by decide)⟩

end TicketTracker
